import Mathlib

/-!
Verification of the balance-carry and yield-apportionment engine of
`gestao.py` (PDDE school-fund ledger).

Modelling conventions:
* Currency amounts are embedded as exact rationals (`ℚ`); the Python source
  uses floats, and the spec asks for the exact-arithmetic reading of each
  arithmetic identity.
* A Python dict-backed record becomes a structure; a dict with dynamic keys
  becomes an association list (`List (String × _)`) looked up with `find?`,
  matching first-match semantics of a dict (keys are unique in the source,
  where every such dict is a Python `dict`).
* `datetime.now().year` is passed in explicitly as the `currentYear`
  parameter of every function that consults it.
* A movement's optional `'ano'` key becomes `Option Int`; `mov.get('ano', d)`
  becomes `Option.getD`, and `m.get('ano') == y` (no default) becomes
  `m.ano == some y`, which is `false` when the key is absent, exactly as
  `None == y` is in Python.
* Indexing `st.session_state['accounts'][account_name]`, which raises
  `KeyError` on an unknown account, is embedded as an `Option`-returning
  lookup: `none` models the raised exception.
-/

/-- The `tipo_recurso` selector of `get_saldo_anterior`:
`'Capital'`, `'Custeio'` or `'Total'`. -/
inductive TipoRecurso where
  | Capital
  | Custeio
  | Total
deriving DecidableEq, Repr

/-- One entry of an account's `saldos_iniciais` dict: the per-program
initial balances `{'Capital': _, 'Custeio': _}`. -/
structure SaldoInicial where
  capital : ℚ
  custeio : ℚ
deriving DecidableEq, Repr

/-- One element of an account's `movimentacoes` list, with the fields
written by `calcular_rateio_rendimento` (gestao.py lines 190-203).
`ano` is optional because older records may lack the `'ano'` key;
readers default it in different ways (see `get_saldo_anterior_conta`
versus `movsAnoProg`). -/
structure Movement where
  programa : String
  mes_num : Nat
  ano : Option Int
  credito_capital : ℚ
  credito_custeio : ℚ
  debito_capital : ℚ
  debito_custeio : ℚ
  rendimento_capital : ℚ
  rendimento_custeio : ℚ
  total_credito : ℚ
  total_debito : ℚ
  total_rendimento : ℚ
deriving DecidableEq, Repr

/-- The persisted shape of one account document
(`{'programas': [], 'movimentacoes': [], 'saldos_iniciais': {}}`). -/
structure Conta where
  programas : List String
  movimentacoes : List Movement
  saldos_iniciais : List (String × SaldoInicial)
deriving DecidableEq, Repr

/-- One value of the `dados_entrada` mapping handed to
`calcular_rateio_rendimento`: the draft credits/debits of one program. -/
structure Entrada where
  cred_cap : ℚ
  cred_cus : ℚ
  deb_cap : ℚ
  deb_cus : ℚ
deriving DecidableEq, Repr

/-- Association-list lookup standing for Python dict indexing
(`saldos_iniciais[programa]` guarded by `programa in saldos_iniciais`). -/
def lookupSaldoInicial (si : List (String × SaldoInicial)) (p : String) :
    Option SaldoInicial :=
  (si.find? (fun x => x.1 == p)).map Prod.snd

/-- The initial-balance seed of `get_saldo_anterior` (gestao.py lines
108-111): per-category value when the program has an entry, the sum of
both categories for `'Total'`, and `0` when the program is absent. -/
def saldoInicialVal (si : Option SaldoInicial) (tipo : TipoRecurso) : ℚ :=
  match si with
  | none => 0
  | some s =>
    match tipo with
    | .Capital => s.capital
    | .Custeio => s.custeio
    | .Total => s.capital + s.custeio

/-- The per-movement net amount added by `get_saldo_anterior`
(gestao.py lines 120-125): `credit + yield − debit` in the selected
category, using the `total_*` fields for `'Total'`. -/
def netMov (tipo : TipoRecurso) (m : Movement) : ℚ :=
  match tipo with
  | .Capital => m.credito_capital + m.rendimento_capital - m.debito_capital
  | .Custeio => m.credito_custeio + m.rendimento_custeio - m.debito_custeio
  | .Total => m.total_credito + m.total_rendimento - m.total_debito

/-- The `eh_passado` test of `get_saldo_anterior` (gestao.py lines
114-117): the movement's year defaults to the current calendar year when
the `'ano'` key is absent, and the movement counts when its (year, month)
is strictly chronologically before the target. -/
def ehPassado (currentYear ano_alvo : Int) (mes_alvo : Nat) (m : Movement) :
    Bool :=
  let mov_ano := m.ano.getD currentYear
  mov_ano < ano_alvo || (mov_ano == ano_alvo && m.mes_num < mes_alvo)

/-- Core of `get_saldo_anterior` (gestao.py lines 101-127) once the
account document has been fetched: seed with the program's initial
balance and fold the qualifying movements. -/
def get_saldo_anterior_conta (conta_data : Conta) (currentYear : Int)
    (programa : String) (tipo_recurso : TipoRecurso)
    (mes_alvo : Nat) (ano_alvo : Int) : ℚ :=
  conta_data.movimentacoes.foldl
    (fun saldo m =>
      if m.programa == programa && ehPassado currentYear ano_alvo mes_alvo m
      then saldo + netMov tipo_recurso m
      else saldo)
    (saldoInicialVal (lookupSaldoInicial conta_data.saldos_iniciais programa)
      tipo_recurso)

/-- `get_saldo_anterior` as called against the session's `accounts` dict:
`st.session_state['accounts'][account_name]` raises `KeyError` when the
account is unknown, modelled by the `none` result. -/
def get_saldo_anterior (accounts : List (String × Conta))
    (currentYear : Int) (account_name programa : String)
    (tipo_recurso : TipoRecurso) (mes_alvo : Nat) (ano_alvo : Int) :
    Option ℚ :=
  ((accounts.find? (fun x => x.1 == account_name)).map Prod.snd).map
    (fun c =>
      get_saldo_anterior_conta c currentYear programa tipo_recurso
        mes_alvo ano_alvo)

/-- The clamped per-category base balance of one program inside
`calcular_rateio_rendimento` (gestao.py lines 166-172):
`max(0, saldo_anterior + credito − debito)` for Capital and Custeio. -/
def baseProg (conta : Conta) (currentYear : Int) (mes_num : Nat) (ano : Int)
    (prog : String) (valores : Entrada) : ℚ × ℚ :=
  let saldo_ant_cap :=
    get_saldo_anterior_conta conta currentYear prog .Capital mes_num ano
  let saldo_ant_cus :=
    get_saldo_anterior_conta conta currentYear prog .Custeio mes_num ano
  (max 0 (saldo_ant_cap + valores.cred_cap - valores.deb_cap),
   max 0 (saldo_ant_cus + valores.cred_cus - valores.deb_cus))

/-- The pool total `total_saldo_conta` accumulated by the first loop of
`calcular_rateio_rendimento` (gestao.py lines 163-173). -/
def totalSaldoConta (conta : Conta) (currentYear : Int) (mes_num : Nat)
    (ano : Int) (dados_entrada : List (String × Entrada)) : ℚ :=
  dados_entrada.foldl
    (fun acc pv =>
      let b := baseProg conta currentYear mes_num ano pv.1 pv.2
      acc + (b.1 + b.2))
    0

/-- One iteration of the result loop of `calcular_rateio_rendimento`
(gestao.py lines 177-203): given the precomputed pool total, build the
finalized movement record of one entered program. -/
def rateioMov (conta : Conta) (currentYear : Int) (mes_num : Nat)
    (ano : Int) (rendimento_total_banco total_saldo_conta : ℚ)
    (pv : String × Entrada) : Movement :=
  let base := baseProg conta currentYear mes_num ano pv.1 pv.2
  let fator_cap : ℚ :=
    if 0 < total_saldo_conta then base.1 / total_saldo_conta else 0
  let fator_cus : ℚ :=
    if 0 < total_saldo_conta then base.2 / total_saldo_conta else 0
  let rend_cap := rendimento_total_banco * fator_cap
  let rend_cus := rendimento_total_banco * fator_cus
  { programa := pv.1
    mes_num := mes_num
    ano := some ano
    credito_capital := pv.2.cred_cap
    credito_custeio := pv.2.cred_cus
    debito_capital := pv.2.deb_cap
    debito_custeio := pv.2.deb_cus
    rendimento_capital := rend_cap
    rendimento_custeio := rend_cus
    total_credito := pv.2.cred_cap + pv.2.cred_cus
    total_debito := pv.2.deb_cap + pv.2.deb_cus
    total_rendimento := rend_cap + rend_cus }

/-- `calcular_rateio_rendimento` (gestao.py lines 161-205): apportion the
bank-reported yield across the entered programs in proportion to their
clamped base balances, emitting one finalized movement per entry.
`dados_entrada` is a Python dict, so its keys are unique; the embedding
takes it as an association list in iteration order. -/
def calcular_rateio_rendimento (conta : Conta) (currentYear : Int)
    (mes_num : Nat) (ano : Int) (rendimento_total_banco : ℚ)
    (dados_entrada : List (String × Entrada)) : List Movement :=
  let total_saldo_conta :=
    totalSaldoConta conta currentYear mes_num ano dados_entrada
  dados_entrada.map
    (rateioMov conta currentYear mes_num ano rendimento_total_banco
      total_saldo_conta)

/-- The save action of the Lançamentos tab (gestao.py lines 262-269):
compute the month's finalized records, drop every existing movement of
that (month, year) — the stored year defaulting to the current calendar
year — and append the new records. -/
def save_month (conta : Conta) (currentYear : Int) (mes_selecionado : Nat)
    (ano_atual : Int) (rendimento_total : ℚ)
    (dados_entrada : List (String × Entrada)) : Conta :=
  let novos_registros :=
    calcular_rateio_rendimento conta currentYear mes_selecionado ano_atual
      rendimento_total dados_entrada
  let lista_limpa := conta.movimentacoes.filter
    (fun m =>
      !(m.mes_num == mes_selecionado && m.ano.getD currentYear == ano_atual))
  { conta with movimentacoes := lista_limpa ++ novos_registros }

/-- The annual summary's year filter (gestao.py line 356):
`m['programa'] == prog and m.get('ano') == ano_atual` — note the raw
`.get('ano')` with no default, so a movement lacking the year key never
matches any year. -/
def movsAnoProg (conta : Conta) (prog : String) (ano_atual : Int) :
    List Movement :=
  conta.movimentacoes.filter
    (fun m => m.programa == prog && m.ano == some ano_atual)

/-- The annual summary's closing balance for one program
(gestao.py lines 351-364): prior Total balance as of January of the year,
plus the year's credit and yield sums, minus the year's debit sum. -/
def resumo_saldo_final (conta : Conta) (currentYear : Int) (prog : String)
    (ano_atual : Int) : ℚ :=
  let saldo_anterior :=
    get_saldo_anterior_conta conta currentYear prog .Total 1 ano_atual
  let movs_ano := movsAnoProg conta prog ano_atual
  let credito_ano := (movs_ano.map (fun m => m.total_credito)).sum
  let rendimento_ano := (movs_ano.map (fun m => m.total_rendimento)).sum
  let debito_ano := (movs_ano.map (fun m => m.total_debito)).sum
  saldo_anterior + credito_ano + rendimento_ano - debito_ano

/-! ### Helper lemmas about folds and filtered sums -/

/-- A fold that conditionally accumulates `f` equals the seed plus the sum
of `f` over the filtered list. -/
theorem foldl_ite_add_eq_filter_sum {α : Type} (p : α → Bool) (f : α → ℚ)
    (l : List α) (a : ℚ) :
    l.foldl (fun s m => if p m then s + f m else s) a
      = a + ((l.filter p).map f).sum := by
  induction l generalizing a with
  | nil => simp
  | cons x xs ih =>
    by_cases hx : p x
    · simp [List.foldl_cons, List.filter_cons, hx, ih, add_assoc]
    · simp [List.foldl_cons, List.filter_cons, hx, ih]

/-- A fold that always accumulates `f` equals the seed plus the sum of the
mapped list. -/
theorem foldl_add_eq_map_sum {α : Type} (f : α → ℚ) (l : List α) (a : ℚ) :
    l.foldl (fun s m => s + f m) a = a + (l.map f).sum := by
  induction l generalizing a with
  | nil => simp
  | cons x xs ih => simp [List.foldl_cons, ih, add_assoc]

/-- `get_saldo_anterior_conta` in closed form: initial balance plus the
sum of per-category nets over the movements of the program strictly
before the target period. -/
theorem get_saldo_anterior_conta_eq (conta : Conta) (cy : Int)
    (prog : String) (tipo : TipoRecurso) (mes_alvo : Nat) (ano_alvo : Int) :
    get_saldo_anterior_conta conta cy prog tipo mes_alvo ano_alvo
      = saldoInicialVal (lookupSaldoInicial conta.saldos_iniciais prog) tipo
        + ((conta.movimentacoes.filter
            (fun m => m.programa == prog && ehPassado cy ano_alvo mes_alvo m)
           ).map (netMov tipo)).sum := by
  unfold get_saldo_anterior_conta
  exact foldl_ite_add_eq_filter_sum _ _ _ _

/-- The pool total in closed form: the sum of clamped per-program bases. -/
theorem totalSaldoConta_eq (conta : Conta) (cy : Int) (mes : Nat)
    (ano : Int) (entrada : List (String × Entrada)) :
    totalSaldoConta conta cy mes ano entrada
      = (entrada.map (fun pv =>
          (baseProg conta cy mes ano pv.1 pv.2).1
            + (baseProg conta cy mes ano pv.1 pv.2).2)).sum := by
  unfold totalSaldoConta
  rw [foldl_add_eq_map_sum, zero_add]

/-- Sum of a left-scaled mapped list. -/
theorem sum_map_mul_left_rat {α : Type} (l : List α) (r : ℚ) (f : α → ℚ) :
    (l.map (fun x => r * f x)).sum = r * (l.map f).sum := by
  induction l with
  | nil => simp
  | cons x xs ih => simp [ih, mul_add]

/-! ### Sample data used by witnesses (the §8 scenario of the spec) -/

/-- Account with programs P1 (initial Capital 100) and P2 (all zero). -/
def contaA : Conta :=
  { programas := ["P1", "P2"]
    movimentacoes := []
    saldos_iniciais := [("P1", ⟨100, 0⟩), ("P2", ⟨0, 0⟩)] }

/-- January drafts: P1 enters nothing, P2 enters Capital credit 100. -/
def entradaJan : List (String × Entrada) :=
  [("P1", ⟨0, 0, 0, 0⟩), ("P2", ⟨100, 0, 0, 0⟩)]

/-- Account with one program and no balances at all. -/
def contaB : Conta :=
  { programas := ["P1"]
    movimentacoes := []
    saldos_iniciais := [("P1", ⟨0, 0⟩)] }

/-- All-zero draft for the single program of `contaB`. -/
def entradaZero : List (String × Entrada) :=
  [("P1", ⟨0, 0, 0, 0⟩)]

/-- The movement `calcular_rateio_rendimento` emits for `contaB` with the
all-zero draft: every numeric field is zero. -/
def movB : Movement :=
  { programa := "P1", mes_num := 1, ano := some 2024
    credito_capital := 0, credito_custeio := 0
    debito_capital := 0, debito_custeio := 0
    rendimento_capital := 0, rendimento_custeio := 0
    total_credito := 0, total_debito := 0, total_rendimento := 0 }

/-- The movement emitted for P1 in the §8 scenario: Capital yield 5. -/
def movA1 : Movement :=
  { programa := "P1", mes_num := 1, ano := some 2024
    credito_capital := 0, credito_custeio := 0
    debito_capital := 0, debito_custeio := 0
    rendimento_capital := 5, rendimento_custeio := 0
    total_credito := 0, total_debito := 0, total_rendimento := 5 }

/-! ### Claim theorems -/

/-- C1: Yield conservation — whenever the pool total of clamped base
balances is strictly positive, the emitted `rendimento_capital +
rendimento_custeio` fields sum to exactly `rendimento_total_banco`
under exact rational arithmetic. -/
theorem C1_yield_conservation (conta : Conta) (cy : Int) (mes : Nat)
    (ano : Int) (rend : ℚ) (entrada : List (String × Entrada))
    (h : 0 < totalSaldoConta conta cy mes ano entrada) :
    ((calcular_rateio_rendimento conta cy mes ano rend entrada).map
      (fun m => m.rendimento_capital + m.rendimento_custeio)).sum = rend := by
  have hne : totalSaldoConta conta cy mes ano entrada ≠ 0 := ne_of_gt h
  have key : ((calcular_rateio_rendimento conta cy mes ano rend entrada).map
      (fun m => m.rendimento_capital + m.rendimento_custeio))
      = entrada.map (fun pv =>
          (rend / totalSaldoConta conta cy mes ano entrada)
            * ((baseProg conta cy mes ano pv.1 pv.2).1
                + (baseProg conta cy mes ano pv.1 pv.2).2)) := by
    unfold calcular_rateio_rendimento
    rw [List.map_map]
    refine congrArg (fun f => List.map f entrada) (funext fun pv => ?_)
    simp only [Function.comp_apply, rateioMov, if_pos h]
    field_simp
    ring
  rw [key, sum_map_mul_left_rat, ← totalSaldoConta_eq]
  exact div_mul_cancel₀ rend hne

/-- Witness for C1 at the §8 scenario: pool 200, reported yield 10. -/
theorem C1_yield_conservation_witness :
    0 < totalSaldoConta contaA 2024 1 2024 entradaJan ∧
    ((calcular_rateio_rendimento contaA 2024 1 2024 10 entradaJan).map
      (fun m => m.rendimento_capital + m.rendimento_custeio)).sum = 10 :=
  ⟨by simp [totalSaldoConta, entradaJan, baseProg, get_saldo_anterior_conta,
      contaA, lookupSaldoInicial, saldoInicialVal],
   C1_yield_conservation contaA 2024 1 2024 10 entradaJan
    (by simp [totalSaldoConta, entradaJan, baseProg, get_saldo_anterior_conta,
      contaA, lookupSaldoInicial, saldoInicialVal])⟩

/-- C5: Zero-pool safety — when the pool total is 0 the apportionment is
still defined (the guard takes the factor-0 branch, no division happens)
and every emitted movement carries yield 0 in both categories. -/
theorem C5_zero_pool (conta : Conta) (cy : Int) (mes : Nat) (ano : Int)
    (rend : ℚ) (entrada : List (String × Entrada))
    (h : totalSaldoConta conta cy mes ano entrada = 0) :
    ∀ m ∈ calcular_rateio_rendimento conta cy mes ano rend entrada,
      m.rendimento_capital = 0 ∧ m.rendimento_custeio = 0 := by
  intro m hm
  unfold calcular_rateio_rendimento at hm
  rcases List.mem_map.1 hm with ⟨pv, _, rfl⟩
  constructor <;> simp [rateioMov, h]

/-- Witness for C5: all-zero account, yet a reported yield of 10. -/
theorem C5_zero_pool_witness :
    totalSaldoConta contaB 2024 1 2024 entradaZero = 0 ∧
    movB.rendimento_capital = 0 ∧ movB.rendimento_custeio = 0 :=
  ⟨by simp [totalSaldoConta, entradaZero, baseProg, get_saldo_anterior_conta,
      contaB, lookupSaldoInicial, saldoInicialVal],
   C5_zero_pool contaB 2024 1 2024 10 entradaZero
     (by simp [totalSaldoConta, entradaZero, baseProg, get_saldo_anterior_conta,
       contaB, lookupSaldoInicial, saldoInicialVal])
     movB
     (by simp [calcular_rateio_rendimento, entradaZero, rateioMov,
       totalSaldoConta, baseProg, get_saldo_anterior_conta, contaB,
       lookupSaldoInicial, saldoInicialVal, movB])⟩

/-- C9: Derived-total consistency — every movement emitted by the
apportionment has `total_credito`, `total_debito` and `total_rendimento`
equal to the sums of their respective per-category fields. -/
theorem C9_derived_totals (conta : Conta) (cy : Int) (mes : Nat)
    (ano : Int) (rend : ℚ) (entrada : List (String × Entrada)) :
    ∀ m ∈ calcular_rateio_rendimento conta cy mes ano rend entrada,
      m.total_credito = m.credito_capital + m.credito_custeio ∧
      m.total_debito = m.debito_capital + m.debito_custeio ∧
      m.total_rendimento = m.rendimento_capital + m.rendimento_custeio := by
  intro m hm
  unfold calcular_rateio_rendimento at hm
  rcases List.mem_map.1 hm with ⟨pv, _, rfl⟩
  exact ⟨rfl, rfl, rfl⟩

/-- Witness for C9 at the §8 scenario's P1 movement. -/
theorem C9_derived_totals_witness :
    movA1.total_credito = movA1.credito_capital + movA1.credito_custeio ∧
    movA1.total_debito = movA1.debito_capital + movA1.debito_custeio ∧
    movA1.total_rendimento
      = movA1.rendimento_capital + movA1.rendimento_custeio :=
  C9_derived_totals contaA 2024 1 2024 10 entradaJan movA1
    (by simp [calcular_rateio_rendimento, entradaJan, rateioMov,
        totalSaldoConta, baseProg, get_saldo_anterior_conta, contaA,
        lookupSaldoInicial, saldoInicialVal, movA1]
        norm_num)

/-- Spec-side reading of "(year, month) strictly chronologically before
(targetYear, targetMonth)" on a movement's stored year. A movement with
no stored year never satisfies it; the claims that use this definition
assume every movement carries a year. -/
def strictlyBefore (ano_alvo : Int) (mes_alvo : Nat) (m : Movement) :
    Bool :=
  match m.ano with
  | some y => y < ano_alvo || (y == ano_alvo && m.mes_num < mes_alvo)
  | none => false

/-- Sample movement: December 2023, program P1. -/
def movDez23 : Movement :=
  { programa := "P1", mes_num := 12, ano := some 2023
    credito_capital := 50, credito_custeio := 0
    debito_capital := 10, debito_custeio := 0
    rendimento_capital := 1, rendimento_custeio := 0
    total_credito := 50, total_debito := 10, total_rendimento := 1 }

/-- Sample movement: January 2024, program P1. -/
def movJan24 : Movement :=
  { programa := "P1", mes_num := 1, ano := some 2024
    credito_capital := 7, credito_custeio := 3
    debito_capital := 2, debito_custeio := 1
    rendimento_capital := 0, rendimento_custeio := 0
    total_credito := 10, total_debito := 3, total_rendimento := 0 }

/-- Account with movements on both sides of the 2023/2024 boundary. -/
def contaC : Conta :=
  { programas := ["P1"]
    movimentacoes := [movDez23, movJan24]
    saldos_iniciais := [("P1", ⟨100, 0⟩)] }

/-- C2: Strictly-before reconstruction — when every movement carries a
stored year, `get_saldo_anterior` returns the initial balance of the
program/category plus the net of exactly the movements of that program
strictly before the target (year, month); no movement of the target
month itself is among them. -/
theorem C2_strictly_before (conta : Conta) (cy : Int) (prog : String)
    (tipo : TipoRecurso) (mes_alvo : Nat) (ano_alvo : Int)
    (hy : ∀ m ∈ conta.movimentacoes, m.ano ≠ none) :
    (get_saldo_anterior_conta conta cy prog tipo mes_alvo ano_alvo
      = saldoInicialVal (lookupSaldoInicial conta.saldos_iniciais prog) tipo
        + ((conta.movimentacoes.filter
            (fun m => m.programa == prog
              && strictlyBefore ano_alvo mes_alvo m)).map
           (netMov tipo)).sum)
    ∧ ∀ m ∈ conta.movimentacoes.filter
        (fun m => m.programa == prog && strictlyBefore ano_alvo mes_alvo m),
        ¬(m.ano = some ano_alvo ∧ m.mes_num = mes_alvo) := by
  have hfilter : conta.movimentacoes.filter
        (fun m => m.programa == prog && ehPassado cy ano_alvo mes_alvo m)
      = conta.movimentacoes.filter
        (fun m => m.programa == prog && strictlyBefore ano_alvo mes_alvo m) := by
    apply List.filter_congr
    intro m hm
    rcases hmo : m.ano with _ | y
    · exact absurd hmo (hy m hm)
    · simp [ehPassado, strictlyBefore, hmo]
  refine ⟨?_, ?_⟩
  · rw [get_saldo_anterior_conta_eq, hfilter]
  · rintro m hm ⟨h1, h2⟩
    have hsb := (List.mem_filter.1 hm).2
    rw [Bool.and_eq_true] at hsb
    have := hsb.2
    rw [strictlyBefore] at this
    rw [h1] at this
    simp [h2] at this

/-- Witness for C2 on `contaC`, target January 2024: the December 2023
movement is counted, the January 2024 movement is not. -/
theorem C2_strictly_before_witness :
    (∀ m ∈ contaC.movimentacoes, m.ano ≠ none) ∧
    get_saldo_anterior_conta contaC 2024 "P1" TipoRecurso.Capital 1 2024
      = saldoInicialVal (lookupSaldoInicial contaC.saldos_iniciais "P1")
          TipoRecurso.Capital
        + ((contaC.movimentacoes.filter
            (fun m => m.programa == "P1" && strictlyBefore 2024 1 m)).map
           (netMov TipoRecurso.Capital)).sum :=
  ⟨by decide,
   (C2_strictly_before contaC 2024 "P1" TipoRecurso.Capital 1 2024
     (by decide)).1⟩

/-- Splitting a filtered sum along a disjoint boolean decomposition of
the predicate, pointwise on the list. -/
theorem filter_sum_split {α : Type} (p q r : α → Bool) (f : α → ℚ)
    (l : List α)
    (hpq : ∀ x ∈ l, p x = (q x || r x))
    (hqr : ∀ x ∈ l, ¬(q x = true ∧ r x = true)) :
    ((l.filter p).map f).sum
      = ((l.filter q).map f).sum + ((l.filter r).map f).sum := by
  induction l with
  | nil => simp
  | cons x xs ih =>
    have h1 : p x = (q x || r x) := hpq x (by simp)
    have h2 : ¬(q x = true ∧ r x = true) := hqr x (by simp)
    have ih' := ih (fun y hy => hpq y (by simp [hy]))
      (fun y hy => hqr y (by simp [hy]))
    by_cases hq : q x = true
    · have hr : r x = false := by
        cases hrx : r x
        · rfl
        · exact absurd ⟨hq, hrx⟩ h2
      rw [show (x :: xs).filter p = x :: xs.filter p by
            simp [List.filter_cons, h1, hq, hr],
          show (x :: xs).filter q = x :: xs.filter q by
            simp [List.filter_cons, hq],
          show (x :: xs).filter r = xs.filter r by
            simp [List.filter_cons, hr]]
      simp only [List.map_cons, List.sum_cons, ih']
      ring
    · have hq' : q x = false := by simpa using hq
      by_cases hrx : r x = true
      · rw [show (x :: xs).filter p = x :: xs.filter p by
              simp [List.filter_cons, h1, hq', hrx],
            show (x :: xs).filter q = xs.filter q by
              simp [List.filter_cons, hq'],
            show (x :: xs).filter r = x :: xs.filter r by
              simp [List.filter_cons, hrx]]
        simp only [List.map_cons, List.sum_cons, ih']
        ring
      · have hr' : r x = false := by simpa using hrx
        simp [List.filter_cons, h1, hq', hr', ih']

/-- The `Total` net over a list splits into the credit, yield and debit
column sums of the annual summary. -/
theorem sum_map_net_total (l : List Movement) :
    (l.map (netMov TipoRecurso.Total)).sum
      = (l.map (fun m => m.total_credito)).sum
        + (l.map (fun m => m.total_rendimento)).sum
        - (l.map (fun m => m.total_debito)).sum := by
  induction l with
  | nil => simp
  | cons x xs ih =>
    simp only [List.map_cons, List.sum_cons, ih, netMov]
    ring

/-- C3: Balance continuity — when every movement has a stored year and a
month in 1..12, the prior balance at (month 1, Y+1) equals the prior
balance at (month 1, Y) plus the year-Y net, for every category; and the
annual summary's closing balance for year Y equals the prior Total
balance at (month 1, Y+1). -/
theorem C3_balance_continuity (conta : Conta) (cy : Int) (prog : String)
    (Y : Int)
    (hy : ∀ m ∈ conta.movimentacoes, m.ano ≠ none)
    (hm : ∀ m ∈ conta.movimentacoes, 1 ≤ m.mes_num ∧ m.mes_num ≤ 12) :
    (∀ tipo, get_saldo_anterior_conta conta cy prog tipo 1 (Y + 1)
        = get_saldo_anterior_conta conta cy prog tipo 1 Y
          + ((conta.movimentacoes.filter
              (fun m => m.programa == prog && m.ano == some Y)).map
             (netMov tipo)).sum)
    ∧ resumo_saldo_final conta cy prog Y
        = get_saldo_anterior_conta conta cy prog TipoRecurso.Total 1 (Y + 1)
    := by
  have key : ∀ x ∈ conta.movimentacoes,
      (x.programa == prog && ehPassado cy (Y + 1) 1 x)
        = ((x.programa == prog && ehPassado cy Y 1 x)
            || (x.programa == prog && x.ano == some Y)) := by
    intro x hx
    rcases hmo : x.ano with _ | y
    · exact absurd hmo (hy x hx)
    have hx1 : ¬(x.mes_num < 1) := by
      have := (hm x hx).1
      omega
    rw [Bool.eq_iff_iff]
    simp only [ehPassado, hmo, Option.getD_some, Bool.and_eq_true,
      Bool.or_eq_true, decide_eq_true_eq, beq_iff_eq, Option.some.injEq,
      hx1, and_false, or_false]
    by_cases hpx : x.programa = prog
    · simp only [hpx, true_and]
      omega
    · simp [hpx]
  have hdisj : ∀ x ∈ conta.movimentacoes,
      ¬((x.programa == prog && ehPassado cy Y 1 x) = true
        ∧ (x.programa == prog && x.ano == some Y) = true) := by
    rintro x hx ⟨ha, hb⟩
    rcases hmo : x.ano with _ | y
    · exact absurd hmo (hy x hx)
    have hx1 : ¬(x.mes_num < 1) := by
      have := (hm x hx).1
      omega
    simp only [ehPassado, hmo, Option.getD_some, Bool.and_eq_true,
      Bool.or_eq_true, decide_eq_true_eq, beq_iff_eq, Option.some.injEq,
      hx1, and_false, or_false] at ha hb
    omega
  have hpart1 : ∀ tipo, get_saldo_anterior_conta conta cy prog tipo 1 (Y + 1)
      = get_saldo_anterior_conta conta cy prog tipo 1 Y
        + ((conta.movimentacoes.filter
            (fun m => m.programa == prog && m.ano == some Y)).map
           (netMov tipo)).sum := by
    intro tipo
    rw [get_saldo_anterior_conta_eq, get_saldo_anterior_conta_eq,
      filter_sum_split _ _ _ (netMov tipo) conta.movimentacoes key hdisj]
    ring
  refine ⟨hpart1, ?_⟩
  rw [resumo_saldo_final, hpart1 TipoRecurso.Total, movsAnoProg,
    sum_map_net_total]
  ring

/-- Witness for C3 on `contaC` at the 2023/2024 boundary. -/
theorem C3_balance_continuity_witness :
    (∀ m ∈ contaC.movimentacoes, m.ano ≠ none) ∧
    (∀ m ∈ contaC.movimentacoes, 1 ≤ m.mes_num ∧ m.mes_num ≤ 12) ∧
    resumo_saldo_final contaC 2024 "P1" 2023
      = get_saldo_anterior_conta contaC 2024 "P1" TipoRecurso.Total 1 2024 :=
  ⟨by decide, by decide,
   (C3_balance_continuity contaC 2024 "P1" 2023 (by decide) (by decide)).2⟩

/-- Account with nothing but a zero-initialized program, used to produce
a negative unclamped base. -/
def contaD : Conta :=
  { programas := ["P1"]
    movimentacoes := []
    saldos_iniciais := [("P1", ⟨0, 0⟩)] }

/-- Draft that overdraws both categories: debit 5 with no balance. -/
def entradaD1 : Entrada := ⟨0, 0, 5, 5⟩

/-- The single-entry `dados_entrada` built from `entradaD1`. -/
def entradaD : List (String × Entrada) := [("P1", entradaD1)]

/-- C4: Clamping — the apportionment maps each entry through `rateioMov`
with the pool as the sum of clamped bases, and a program whose unclamped
base in a category is negative has clamped base 0 there (contributing 0
to the pool) and receives yield 0 in that category. -/
theorem C4_clamping (conta : Conta) (cy : Int) (mes : Nat) (ano : Int)
    (rend : ℚ) (entrada : List (String × Entrada)) :
    (calcular_rateio_rendimento conta cy mes ano rend entrada
      = entrada.map (rateioMov conta cy mes ano rend
          (totalSaldoConta conta cy mes ano entrada)))
    ∧ (totalSaldoConta conta cy mes ano entrada
      = (entrada.map (fun pv => (baseProg conta cy mes ano pv.1 pv.2).1
          + (baseProg conta cy mes ano pv.1 pv.2).2)).sum)
    ∧ ∀ pv ∈ entrada,
        (get_saldo_anterior_conta conta cy pv.1 TipoRecurso.Capital mes ano
            + pv.2.cred_cap - pv.2.deb_cap < 0 →
          (baseProg conta cy mes ano pv.1 pv.2).1 = 0
          ∧ (rateioMov conta cy mes ano rend
              (totalSaldoConta conta cy mes ano entrada) pv
            ).rendimento_capital = 0)
        ∧ (get_saldo_anterior_conta conta cy pv.1 TipoRecurso.Custeio mes ano
            + pv.2.cred_cus - pv.2.deb_cus < 0 →
          (baseProg conta cy mes ano pv.1 pv.2).2 = 0
          ∧ (rateioMov conta cy mes ano rend
              (totalSaldoConta conta cy mes ano entrada) pv
            ).rendimento_custeio = 0) := by
  refine ⟨rfl, totalSaldoConta_eq conta cy mes ano entrada, ?_⟩
  intro pv _
  constructor
  · intro hneg
    have hbase : (baseProg conta cy mes ano pv.1 pv.2).1 = 0 :=
      max_eq_left (le_of_lt hneg)
    refine ⟨hbase, ?_⟩
    by_cases hT : 0 < totalSaldoConta conta cy mes ano entrada <;>
      simp [rateioMov, hbase, hT]
  · intro hneg
    have hbase : (baseProg conta cy mes ano pv.1 pv.2).2 = 0 :=
      max_eq_left (le_of_lt hneg)
    refine ⟨hbase, ?_⟩
    by_cases hT : 0 < totalSaldoConta conta cy mes ano entrada <;>
      simp [rateioMov, hbase, hT]

/-- Witness for C4: overdrawing entry on a zero-balance account. -/
theorem C4_clamping_witness :
    (get_saldo_anterior_conta contaD 2024 "P1" TipoRecurso.Capital 1 2024
      + entradaD1.cred_cap - entradaD1.deb_cap < 0) ∧
    (baseProg contaD 2024 1 2024 "P1" entradaD1).1 = 0 ∧
    (rateioMov contaD 2024 1 2024 10
      (totalSaldoConta contaD 2024 1 2024 entradaD)
      ("P1", entradaD1)).rendimento_capital = 0 := by
  have hneg : get_saldo_anterior_conta contaD 2024 "P1" TipoRecurso.Capital
      1 2024 + entradaD1.cred_cap - entradaD1.deb_cap < 0 := by
    simp [get_saldo_anterior_conta, contaD, lookupSaldoInicial,
      saldoInicialVal, entradaD1]
  have h := ((C4_clamping contaD 2024 1 2024 10 entradaD).2.2
    ("P1", entradaD1) (by simp [entradaD])).1 hneg
  exact ⟨hneg, h.1, h.2⟩

/-- C7 counterexample: a balance query against an account name that was
never created does not yield zero — the account lookup itself fails
(`st.session_state['accounts'][account_name]` raises `KeyError`,
modelled as `none`). -/
theorem C7_counterexample :
    get_saldo_anterior [] 2024 "27.922-6" "PDDE" TipoRecurso.Capital 1 2024
      = none := rfl

/-- C7 amended: the leniency holds for unknown programs only — for any
account present in the session, a program with no initial-balance entry
and no movements yields balance `some 0` with no failure; an unknown
account, by contrast, is a hard failure (see `C7_counterexample`). -/
theorem C7_amended_unknown_program (accounts : List (String × Conta))
    (cy : Int) (name : String) (conta : Conta) (prog : String)
    (tipo : TipoRecurso) (mes : Nat) (ano : Int)
    (hacc : accounts.find? (fun x => x.1 == name) = some (name, conta))
    (hsi : ∀ e ∈ conta.saldos_iniciais, e.1 ≠ prog)
    (hmv : ∀ m ∈ conta.movimentacoes, m.programa ≠ prog) :
    get_saldo_anterior accounts cy name prog tipo mes ano = some 0 := by
  unfold get_saldo_anterior
  rw [hacc]
  simp only [Option.map_some']
  congr 1
  rw [get_saldo_anterior_conta_eq]
  have hsi0 : lookupSaldoInicial conta.saldos_iniciais prog = none := by
    unfold lookupSaldoInicial
    rw [List.find?_eq_none.2]
    · rfl
    · intro x hx
      simpa using hsi x hx
  have hfil : conta.movimentacoes.filter
      (fun m => m.programa == prog && ehPassado cy ano mes m) = [] := by
    rw [List.filter_eq_nil_iff]
    intro m hm
    simp [hmv m hm]
  rw [hsi0, hfil]
  simp [saldoInicialVal]

/-- Witness for the amended C7: `contaC` has no program "NOPE". -/
theorem C7_amended_unknown_program_witness :
    ([("A", contaC)].find? (fun x => x.1 == "A") = some ("A", contaC)) ∧
    get_saldo_anterior [("A", contaC)] 2024 "A" "NOPE" TipoRecurso.Total
      1 2024 = some 0 :=
  ⟨rfl,
   C7_amended_unknown_program [("A", contaC)] 2024 "A" contaC "NOPE"
     TipoRecurso.Total 1 2024 rfl (by decide) (by decide)⟩

/-- C8 counterexample: pool total 0 with reported yield 10 — the call's
entire output (the returned movement list) is identical to that of a
zero-yield call, and the emitted yields sum to 0, so nothing about the
undistributed amount is surfaced to the caller. -/
theorem C8_counterexample :
    calcular_rateio_rendimento contaB 2024 1 2024 10 entradaZero
      = calcular_rateio_rendimento contaB 2024 1 2024 0 entradaZero
    ∧ ((calcular_rateio_rendimento contaB 2024 1 2024 10 entradaZero).map
        (fun m => m.total_rendimento)).sum = 0 := by
  constructor <;>
    simp [calcular_rateio_rendimento, rateioMov, entradaZero,
      totalSaldoConta, baseProg, get_saldo_anterior_conta, contaB,
      lookupSaldoInicial, saldoInicialVal]

/-- C8 amended: when the pool total is 0 and the reported yield is
nonzero, the condition is NOT surfaced — `calcular_rateio_rendimento`
returns exactly what a zero-yield call returns, and the reported amount
is silently dropped (the emitted yields sum to 0). -/
theorem C8_amended_silent_drop (conta : Conta) (cy : Int) (mes : Nat)
    (ano : Int) (rend : ℚ) (entrada : List (String × Entrada))
    (h : totalSaldoConta conta cy mes ano entrada = 0) :
    calcular_rateio_rendimento conta cy mes ano rend entrada
      = calcular_rateio_rendimento conta cy mes ano 0 entrada
    ∧ ((calcular_rateio_rendimento conta cy mes ano rend entrada).map
        (fun m => m.total_rendimento)).sum = 0 := by
  have hmov : ∀ pv : String × Entrada,
      rateioMov conta cy mes ano rend
        (totalSaldoConta conta cy mes ano entrada) pv
      = rateioMov conta cy mes ano 0
        (totalSaldoConta conta cy mes ano entrada) pv := by
    intro pv
    simp [rateioMov, h]
  constructor
  · unfold calcular_rateio_rendimento
    exact congrArg (fun f => List.map f entrada) (funext hmov)
  · apply List.sum_eq_zero
    intro x hx
    rcases List.mem_map.1 hx with ⟨m, hm, rfl⟩
    unfold calcular_rateio_rendimento at hm
    rcases List.mem_map.1 hm with ⟨pv, _, rfl⟩
    simp [rateioMov, h]

/-- Witness for the amended C8 at the all-zero account. -/
theorem C8_amended_silent_drop_witness :
    totalSaldoConta contaB 2024 1 2024 entradaZero = 0 ∧
    calcular_rateio_rendimento contaB 2024 1 2024 10 entradaZero
      = calcular_rateio_rendimento contaB 2024 1 2024 0 entradaZero :=
  ⟨by simp [totalSaldoConta, entradaZero, baseProg, get_saldo_anterior_conta,
      contaB, lookupSaldoInicial, saldoInicialVal],
   (C8_amended_silent_drop contaB 2024 1 2024 10 entradaZero
     (by simp [totalSaldoConta, entradaZero, baseProg,
       get_saldo_anterior_conta, contaB, lookupSaldoInicial,
       saldoInicialVal])).1⟩

/-- C10: a movement with no stored year is attributed to the current
calendar year by balance reconstruction (counted once the target is past
the current year, not counted up to it), yet the annual summary's year
filter matches it against no year at all. -/
theorem C10_missing_year (m : Movement) (cy : Int) (p : String)
    (hano : m.ano = none) (hp : m.programa = p) (hm1 : 1 ≤ m.mes_num) :
    get_saldo_anterior_conta ⟨[p], [m], []⟩ cy p TipoRecurso.Total 1 (cy + 1)
      = m.total_credito + m.total_rendimento - m.total_debito
    ∧ get_saldo_anterior_conta ⟨[p], [m], []⟩ cy p TipoRecurso.Total 1 cy = 0
    ∧ ∀ Y : Int, movsAnoProg ⟨[p], [m], []⟩ p Y = [] := by
  have hcy : (cy : Int) < cy + 1 := by omega
  have hmes : ¬(m.mes_num < 1) := by omega
  have hne0 : m.mes_num ≠ 0 := by omega
  refine ⟨?_, ?_, ?_⟩
  · simp [get_saldo_anterior_conta, lookupSaldoInicial, saldoInicialVal,
      ehPassado, hano, hp, hcy, netMov]
  · simp [get_saldo_anterior_conta, lookupSaldoInicial, saldoInicialVal,
      ehPassado, hano, hp, hmes, hne0]
  · intro Y
    simp [movsAnoProg, hano]

/-- A stored movement lacking the `'ano'` key. -/
def movNoYear : Movement :=
  { programa := "P1", mes_num := 3, ano := none
    credito_capital := 10, credito_custeio := 0
    debito_capital := 0, debito_custeio := 0
    rendimento_capital := 0, rendimento_custeio := 0
    total_credito := 10, total_debito := 0, total_rendimento := 0 }

/-- Witness for C10: the year-less movement is worth 10 to the balance
as of January after the current year, but no year of the annual summary
picks it up. -/
theorem C10_missing_year_witness :
    movNoYear.ano = none ∧
    get_saldo_anterior_conta ⟨["P1"], [movNoYear], []⟩ 2024 "P1"
      TipoRecurso.Total 1 2025 = 10 ∧
    movsAnoProg ⟨["P1"], [movNoYear], []⟩ "P1" 2024 = [] := by
  have h := C10_missing_year movNoYear 2024 "P1" rfl rfl (by decide)
  refine ⟨rfl, ?_, h.2.2 2024⟩
  rw [show (2025 : Int) = 2024 + 1 by norm_num, h.1]
  norm_num [movNoYear]

/-- The composite key under which `save_month` replaces movements:
program, month number, and stored year defaulted to the current
calendar year, with month and year fixed to one period. -/
def keyMatches (cy : Int) (p : String) (mes : Nat) (y : Int)
    (m : Movement) : Bool :=
  m.programa == p && (m.mes_num == mes && m.ano.getD cy == y)

/-- At-most-one-movement-per-key invariant of a movement list. -/
def atMostOnePerKey (cy : Int) (movs : List Movement) : Prop :=
  ∀ p mes y, (movs.filter (keyMatches cy p mes y)).length ≤ 1

/-- A conjunctive filter is no longer than the filter by its second
conjunct alone. -/
theorem length_filter_and_le_right {α : Type} (p q : α → Bool)
    (l : List α) :
    (l.filter (fun a => p a && q a)).length ≤ (l.filter q).length := by
  induction l with
  | nil => simp
  | cons x xs ih =>
    by_cases hq : q x = true
    · by_cases hp : p x = true
      · rw [show (x :: xs).filter (fun a => p a && q a)
              = x :: xs.filter (fun a => p a && q a) by
              simp [List.filter_cons, hp, hq],
            show (x :: xs).filter q = x :: xs.filter q by
              simp [List.filter_cons, hq]]
        simpa using ih
      · have hp' : p x = false := by simpa using hp
        rw [show (x :: xs).filter (fun a => p a && q a)
              = xs.filter (fun a => p a && q a) by
              simp [List.filter_cons, hp'],
            show (x :: xs).filter q = x :: xs.filter q by
              simp [List.filter_cons, hq]]
        simp only [List.length_cons]
        omega
    · have hq' : q x = false := by simpa using hq
      rw [show (x :: xs).filter (fun a => p a && q a)
            = xs.filter (fun a => p a && q a) by
            simp [List.filter_cons, hq'],
          show (x :: xs).filter q = xs.filter q by
            simp [List.filter_cons, hq']]
      exact ih

/-- Filtering a mapped list is mapping the filtered preimages. -/
theorem filter_map_comm {α β : Type} (f : β → α) (p : α → Bool)
    (l : List β) :
    (l.map f).filter p = (l.filter (fun b => p (f b))).map f := by
  induction l with
  | nil => rfl
  | cons x xs ih =>
    by_cases h : p (f x) = true
    · simp [List.filter_cons, h, ih]
    · have h' : p (f x) = false := by simpa using h
      simp [List.filter_cons, h', ih]

/-- With pairwise-distinct keys, filtering an association list for the
key of a member yields exactly that member. -/
theorem filter_key_eq_of_mem {β : Type} (l : List (String × β))
    (p : String) (v : β)
    (hnd : (l.map Prod.fst).Nodup) (hmem : (p, v) ∈ l) :
    l.filter (fun pv => pv.1 == p) = [(p, v)] := by
  induction l with
  | nil => cases hmem
  | cons x xs ih =>
    simp only [List.map_cons, List.nodup_cons] at hnd
    rcases List.mem_cons.1 hmem with hx | hx
    · subst hx
      have hrest : xs.filter (fun pv => pv.1 == p) = [] := by
        rw [List.filter_eq_nil_iff]
        intro pv hpv
        simp only [beq_iff_eq]
        intro hpp
        have hin : pv.1 ∈ xs.map Prod.fst := List.mem_map_of_mem Prod.fst hpv
        rw [hpp] at hin
        exact hnd.1 hin
      simp [List.filter_cons, hrest]
    · have hx1 : x.1 ≠ p := by
        intro h
        have hin : p ∈ xs.map Prod.fst := List.mem_map_of_mem Prod.fst hx
        rw [← h] at hin
        exact hnd.1 hin
      have : (x.1 == p) = false := by simpa using hx1
      simp only [List.filter_cons, this, Bool.false_eq_true, if_false]
      exact ih hnd.2 hx

/-- With pairwise-distinct keys, an association-list key filter keeps at
most one entry. -/
theorem filter_key_length_le {β : Type} (l : List (String × β))
    (p : String) (hnd : (l.map Prod.fst).Nodup) :
    (l.filter (fun pv => pv.1 == p)).length ≤ 1 := by
  induction l with
  | nil => simp
  | cons x xs ih =>
    simp only [List.map_cons, List.nodup_cons] at hnd
    by_cases hx : x.1 = p
    · have hrest : xs.filter (fun pv => pv.1 == p) = [] := by
        rw [List.filter_eq_nil_iff]
        intro pv hpv
        simp only [beq_iff_eq]
        intro hpp
        have hin : pv.1 ∈ xs.map Prod.fst := List.mem_map_of_mem Prod.fst hpv
        rw [hpp, ← hx] at hin
        exact hnd.1 hin
      simp [List.filter_cons, hx, hrest]
    · have : (x.1 == p) = false := by simpa using hx
      simp only [List.filter_cons, this, Bool.false_eq_true, if_false]
      exact ih hnd.2

/-- `save_month` in closed form: surviving old movements first, then the
freshly computed records (gestao.py lines 263-267). -/
theorem save_month_movimentacoes (conta : Conta) (cy : Int) (mes : Nat)
    (ano : Int) (r : ℚ) (e : List (String × Entrada)) :
    (save_month conta cy mes ano r e).movimentacoes
      = conta.movimentacoes.filter
          (fun m => !(m.mes_num == mes && m.ano.getD cy == ano))
        ++ calcular_rateio_rendimento conta cy mes ano r e := rfl

/-- No movement surviving the period purge matches a key of the purged
period. -/
theorem purged_filter_key_nil (movs : List Movement) (cy : Int)
    (p : String) (mes : Nat) (ano : Int) :
    (movs.filter
        (fun m => !(m.mes_num == mes && m.ano.getD cy == ano))).filter
      (keyMatches cy p mes ano) = [] := by
  rw [List.filter_eq_nil_iff]
  intro m hm
  have h2 := (List.mem_filter.1 hm).2
  simp only [Bool.not_eq_true'] at h2
  simp [keyMatches, h2]

/-- The key pattern of an emitted movement reduces to a key test on the
entry's program name. -/
theorem keyMatches_rateioMov (conta : Conta) (cy : Int) (mes : Nat)
    (ano : Int) (r T : ℚ) (p : String) (pv : String × Entrada) :
    keyMatches cy p mes ano (rateioMov conta cy mes ano r T pv)
      = (pv.1 == p) := by
  simp [keyMatches, rateioMov]

/-- After a save, the movements under the saved period's key of program
`p` are exactly the single record emitted for the entry `(p, v)`. -/
theorem save_month_key_movs (conta : Conta) (cy : Int) (mes : Nat)
    (ano : Int) (r : ℚ) (e : List (String × Entrada)) (p : String)
    (v : Entrada) (hnd : (e.map Prod.fst).Nodup) (hmem : (p, v) ∈ e) :
    (save_month conta cy mes ano r e).movimentacoes.filter
        (keyMatches cy p mes ano)
      = [rateioMov conta cy mes ano r (totalSaldoConta conta cy mes ano e)
          (p, v)] := by
  rw [save_month_movimentacoes, List.filter_append,
    purged_filter_key_nil, List.nil_append]
  unfold calcular_rateio_rendimento
  rw [filter_map_comm]
  simp only [keyMatches_rateioMov]
  rw [filter_key_eq_of_mem e p v hnd hmem]
  rfl

/-- Saving a month preserves the at-most-one-movement-per-key invariant
when the entered programs are pairwise distinct. -/
theorem save_month_atMostOne (conta : Conta) (cy : Int) (mes : Nat)
    (ano : Int) (r : ℚ) (e : List (String × Entrada))
    (hinv : atMostOnePerKey cy conta.movimentacoes)
    (hnd : (e.map Prod.fst).Nodup) :
    atMostOnePerKey cy (save_month conta cy mes ano r e).movimentacoes := by
  intro p mes' y'
  rw [save_month_movimentacoes, List.filter_append, List.length_append]
  by_cases hk : mes' = mes ∧ y' = ano
  · rw [hk.1, hk.2, purged_filter_key_nil]
    have hnew : ((calcular_rateio_rendimento conta cy mes ano r e).filter
        (keyMatches cy p mes ano)).length ≤ 1 := by
      unfold calcular_rateio_rendimento
      rw [filter_map_comm]
      simp only [keyMatches_rateioMov]
      rw [List.length_map]
      exact filter_key_length_le e p hnd
    simpa using hnew
  · have hnew : (calcular_rateio_rendimento conta cy mes ano r e).filter
        (keyMatches cy p mes' y') = [] := by
      rw [List.filter_eq_nil_iff]
      intro m hm
      unfold calcular_rateio_rendimento at hm
      rcases List.mem_map.1 hm with ⟨pv, _, rfl⟩
      simp only [keyMatches, rateioMov, Option.getD_some, Bool.and_eq_true,
        beq_iff_eq, not_and]
      intro _ h2 h3
      exact hk ⟨h2.symm, h3.symm⟩
    rw [hnew]
    have hsub : ((conta.movimentacoes.filter
        (fun m => !(m.mes_num == mes && m.ano.getD cy == ano))).filter
          (keyMatches cy p mes' y')).length
        ≤ ((conta.movimentacoes.filter (keyMatches cy p mes' y'))).length :=
      List.Sublist.length_le
        (List.Sublist.filter _ (List.filter_sublist _))
    have := hinv p mes' y'
    simp only [List.length_nil]
    omega

/-- C6: At-most-one movement per key with replace semantics — saving a
month on a ledger satisfying the per-key invariant (with distinct entered
programs) preserves it, and saving the same (month, year) twice leaves
exactly one movement under each entered program's key, carrying the
second entry's credit/debit values. -/
theorem C6_replace_semantics (conta : Conta) (cy : Int) (mes : Nat)
    (ano : Int) (r1 r2 : ℚ) (e1 e2 : List (String × Entrada)) (p : String)
    (v : Entrada)
    (hinv : atMostOnePerKey cy conta.movimentacoes)
    (hnd1 : (e1.map Prod.fst).Nodup) (hnd2 : (e2.map Prod.fst).Nodup)
    (hmem : (p, v) ∈ e2) :
    atMostOnePerKey cy (save_month conta cy mes ano r1 e1).movimentacoes
    ∧ ((save_month (save_month conta cy mes ano r1 e1) cy mes ano r2 e2
        ).movimentacoes.filter (keyMatches cy p mes ano)).length = 1
    ∧ ∀ mv ∈ (save_month (save_month conta cy mes ano r1 e1) cy mes ano
          r2 e2).movimentacoes.filter (keyMatches cy p mes ano),
        mv.credito_capital = v.cred_cap ∧ mv.credito_custeio = v.cred_cus
        ∧ mv.debito_capital = v.deb_cap ∧ mv.debito_custeio = v.deb_cus := by
  refine ⟨save_month_atMostOne conta cy mes ano r1 e1 hinv hnd1, ?_, ?_⟩
  · rw [save_month_key_movs _ cy mes ano r2 e2 p v hnd2 hmem]
    rfl
  · intro mv hmv
    rw [save_month_key_movs _ cy mes ano r2 e2 p v hnd2 hmem] at hmv
    rcases List.mem_singleton.1 hmv with rfl
    exact ⟨rfl, rfl, rfl, rfl⟩

/-- Witness for C6: two saves of January 2024 on an empty ledger; only
the second entry's record survives under the key. -/
theorem C6_replace_semantics_witness :
    (("P1", (⟨2, 0, 0, 0⟩ : Entrada)) ∈ [("P1", (⟨2, 0, 0, 0⟩ : Entrada))])
    ∧ ((save_month (save_month contaB 2024 1 2024 0
          [("P1", ⟨1, 0, 0, 0⟩)]) 2024 1 2024 0
          [("P1", ⟨2, 0, 0, 0⟩)]).movimentacoes.filter
        (keyMatches 2024 "P1" 1 2024)).length = 1 :=
  ⟨by simp,
   (C6_replace_semantics contaB 2024 1 2024 0 0 [("P1", ⟨1, 0, 0, 0⟩)]
     [("P1", ⟨2, 0, 0, 0⟩)] "P1" ⟨2, 0, 0, 0⟩
     (by intro p mes y; simp [contaB])
     (by simp) (by simp) (by simp)).2.1⟩
